import Mathlib

/-!
# A shallow embedding of the Latch language core

This file embeds the data model and evaluator of the Latch interpreter
(`src/ast.rs`, `src/env.rs`, `src/error.rs`, `src/interpreter.rs`,
`src/main.rs`) and proves properties of the embedded semantics.

Modelling conventions:
* Rust `i64` is modelled as `Int` (no claim exercises 64-bit overflow).
* `f64` values are carried opaquely (`Val.float`); floating-point
  arithmetic, comparison and formatting are not modelled — operations
  that would need them return the undetermined marker `Res.undet`,
  which no construct of the language can intercept.
* Shared-mutable containers (`Arc<Mutex<Vec<Value>>>` /
  `Arc<Mutex<HashMap<String, Value>>>`) are modelled as handles
  (`Val.listRef` / `Val.mapRef`) into an explicit `Store` of cells.
* The evaluator is a fuel-indexed family of functions (`interp`);
  exhausted fuel also yields `Res.undet`.  `Res.undet` additionally
  stands for nontermination and for the two `unwrap` panics on
  `Env::into_parent` (unreachable in ordinary runs).
* Rayon's `into_par_iter().map(...).collect()` preserves input order,
  so the parallel statement's worker results are modelled as a list in
  input order (`run_workers`); the shared store and the shared output
  stream are threaded through the workers in that one schedule.
-/

namespace Latch

/-! ## Syntax (`src/ast.rs`) -/

/-- Binary operators (`ast.rs::BinOp`). -/
inductive BinOp where
  | add | sub | mul | div | mod
  | eq | notEq | lt | gt | ltEq | gtEq
  | and | or
  | inOp
deriving Repr, DecidableEq

/-- Unary operators (`ast.rs::UnaryOp`). -/
inductive UnaryOp where
  | neg
  | not
deriving Repr, DecidableEq

mutual

/-- Function parameter (`ast.rs::Param`): name and optional default
(the runtime ignores type annotations). -/
inductive Param where
  | mk (name : String) (default : Option Expr)

/-- Expressions (`ast.rs::Expr`).  Constructs whose evaluation leaves the
value domain (module calls, pipes, interpolation, slices, field access)
are outside the fragment the claims are about and are not embedded. -/
inductive Expr where
  | intE (n : Int)
  | floatE (bits : Nat)
  | boolE (b : Bool)
  | strE (s : String)
  | nullE
  | listE (items : List Expr)
  | mapE (entries : List (String × Expr))
  | ident (name : String)
  | binop (op : BinOp) (left right : Expr)
  | unary (op : UnaryOp) (e : Expr)
  | callE (name : String) (args : List Expr)
  | indexE (e : Expr) (idx : Expr)
  | orDefault (e d : Expr)
  | nullCoalesce (e d : Expr)
  | fnE (params : List Param) (body : List Stmt)
  | ternary (c a b : Expr)
  | listComp (body : Expr) (var : String) (iter : Expr) (cond : Option Expr)

/-- Statements (`ast.rs::Stmt`).  `use`, `class`, `export`, `import` are
outside the embedded fragment. -/
inductive Stmt where
  | letStmt (name : String) (value : Expr)
  | assign (name : String) (value : Expr)
  | indexAssign (target : Expr) (index : Expr) (value : Expr)
  | ifStmt (cond : Expr) (thenB : List Stmt) (elseS : Option Stmt)
  | forStmt (var : String) (iter : Expr) (body : List Stmt)
  | parallel (var : String) (iter : Expr) (workers : Option Expr) (body : List Stmt)
  | fnDecl (name : String) (params : List Param) (body : List Stmt)
  | ret (e : Expr)
  | tryStmt (body : List Stmt) (catchVar : String) (catchBody : List Stmt)
      (finallyBody : Option (List Stmt))
  | constStmt (name : String) (value : Expr)
  | yieldStmt (e : Expr)
  | stop (e : Expr)
  | whileStmt (cond : Expr) (body : List Stmt)
  | breakStmt
  | continueStmt
  | exprStmt (e : Expr)

end

/-! ## Values and environments (`src/env.rs`) -/

mutual

/-- Runtime values (`env.rs::Value`).  Lists and maps are handles into
the store; `process`/`response` values are outside the fragment. -/
inductive Val where
  | int (n : Int)
  | float (bits : Nat)
  | bool (b : Bool)
  | str (s : String)
  | listRef (id : Nat)
  | mapRef (id : Nat)
  | fnVal (params : List Param) (body : List Stmt) (captured : Option Env)
  | null

/-- Scope chain (`env.rs::Env`): a frame of bindings and an optional
parent.  A frame models a `HashMap`, so binding order is irrelevant:
`frameSet` replaces in place. -/
inductive Env where
  | mk (vars : List (String × Val)) (parent : Option Env)

end

/-- `HashMap::get` on a frame / map cell: first matching key. -/
def lookupVar : List (String × Val) → String → Option Val
  | [], _ => none
  | (k, v) :: rest, name => if k = name then some v else lookupVar rest name

/-- `HashMap::insert`: replace the binding if the key is present,
otherwise add it. -/
def frameSet : List (String × Val) → String → Val → List (String × Val)
  | [], name, v => [(name, v)]
  | (k, w) :: rest, name, v =>
      if k = name then (k, v) :: rest else (k, w) :: frameSet rest name v

/-- `HashMap::contains_key` on a frame. -/
def frameHas : List (String × Val) → String → Bool
  | [], _ => false
  | (k, _) :: rest, name => if k = name then true else frameHas rest name

/-- `Env::get`: walk from the innermost frame outward. -/
def Env.get : Env → String → Option Val
  | .mk vars parent, name =>
    match lookupVar vars name with
    | some v => some v
    | none =>
      match parent with
      | some p => p.get name
      | none => none

/-- `Env::set`: always write the innermost frame. -/
def Env.set : Env → String → Val → Env
  | .mk vars parent, name, v => .mk (frameSet vars name v) parent

/-- `Env::assign`: update the owning frame; `none` models the
`UndefinedVariable` failure. -/
def Env.assign : Env → String → Val → Option Env
  | .mk vars parent, name, v =>
    if frameHas vars name then
      some (.mk (frameSet vars name v) parent)
    else
      match parent with
      | some p => (p.assign name v).map (fun p' => .mk vars (some p'))
      | none => none

/-- `Env::child`. -/
def Env.child (e : Env) : Env := .mk [] (some e)

/-- `Env::into_parent`. -/
def Env.intoParent : Env → Option Env
  | .mk _ parent => parent

/-! ## The store of container cells -/

/-- The backing cells of all live lists and maps.  Fresh cells take the
next id; an id is never reused. -/
structure Store where
  lists : List (Nat × List Val)
  maps : List (Nat × List (String × Val))
  nextId : Nat

def getList (s : Store) (id : Nat) : Option (List Val) :=
  s.lists.lookup id

def getMap (s : Store) (id : Nat) : Option (List (String × Val)) :=
  s.maps.lookup id

def setCell {α : Type} : List (Nat × α) → Nat → α → List (Nat × α)
  | [], _, _ => []
  | (k, w) :: rest, id, v =>
      if k = id then (k, v) :: rest else (k, w) :: setCell rest id v

def setList (s : Store) (id : Nat) (l : List Val) : Store :=
  { s with lists := setCell s.lists id l }

def setMap (s : Store) (id : Nat) (m : List (String × Val)) : Store :=
  { s with maps := setCell s.maps id m }

/-- `Value::new_list`: allocate a fresh list cell. -/
def allocList (s : Store) (l : List Val) : Nat × Store :=
  (s.nextId, { s with lists := s.lists ++ [(s.nextId, l)], nextId := s.nextId + 1 })

/-- `Value::new_map`: allocate a fresh map cell. -/
def allocMap (s : Store) (m : List (String × Val)) : Nat × Store :=
  (s.nextId, { s with maps := s.maps ++ [(s.nextId, m)], nextId := s.nextId + 1 })

/-- Store well-formedness: every allocated id is below `nextId`. -/
def Store.WF (s : Store) : Prop :=
  (∀ p ∈ s.lists, p.1 < s.nextId) ∧ (∀ p ∈ s.maps, p.1 < s.nextId)

instance (s : Store) : Decidable s.WF := by
  unfold Store.WF; infer_instance

/-! ## Errors (`src/error.rs`) -/

/-- `error.rs::LatchError`, restricted to the variants the embedded
fragment can produce.  The control signals ride the error channel
exactly as in the source. -/
inductive LatchError where
  | undefinedVariable (n : String)
  | undefinedFunction (n : String)
  | argCountMismatch (name : String) (expected found : Nat)
  | typeMismatch (expected found : String)
  | divisionByZero
  | indexOutOfBounds (index : Int) (len : Nat)
  | keyNotFound (key : String)
  | genericError (msg : String)
  | returnSignal (v : Val)
  | stopSignal (code : Int)
  | breakSignal
  | continueSignal
  | yieldSignal (v : Val)

/-- Is this error the `ReturnSignal` variant (the one `Stmt::Try`
refuses to catch)? -/
def isRetSig : LatchError → Bool
  | .returnSignal _ => true
  | _ => false

/-- Outcome of an evaluation step: a value, a `LatchError`, or
undetermined (fuel exhausted / unmodelled operation / divergence). -/
inductive Res (α : Type) where
  | ok (a : α)
  | err (e : LatchError)
  | undet

/-- `Value::type_name`. -/
def Val.typeName : Val → String
  | .int _ => "int"
  | .float _ => "float"
  | .bool _ => "bool"
  | .str _ => "string"
  | .listRef _ => "list"
  | .mapRef _ => "dict"
  | .fnVal _ _ _ => "fn"
  | .null => "null"

/-- `Value::is_truthy` (`env.rs` lines 125-133): `false`, `null`, the
integer `0` and the empty string are falsy; everything else is truthy. -/
def Val.isTruthy : Val → Bool
  | .bool false => false
  | .null => false
  | .int n => !(n == 0)
  | .str s => !(s == "")
  | _ => true

/-- `Value::as_int`. -/
def Val.asInt : Val → Res Int
  | .int n => .ok n
  | v => .err (.typeMismatch "int" v.typeName)

/-- `Value::into_list` / `Value::as_list`: clone the cell's contents. -/
def intoListV (store : Store) : Val → Res (List Val)
  | .listRef id =>
    match getList store id with
    | some l => .ok l
    | none => .undet
  | v => .err (.typeMismatch "list" v.typeName)

/-- `LatchError::category` (`error.rs`), for the variants embedded here. -/
def errCategory : LatchError → String
  | .undefinedVariable _ => "Semantic Error"
  | .undefinedFunction _ => "Semantic Error"
  | .argCountMismatch _ _ _ => "Semantic Error"
  | _ => "Runtime Error"

/-- `LatchError::reason`.  The break/continue/yield signals are absent
from `error.rs`; their string form is not observable in the fragment. -/
def errReason : LatchError → String
  | .undefinedVariable n => "Undefined variable \x27" ++ n ++ "\x27"
  | .undefinedFunction n => "Undefined function \x27" ++ n ++ "\x27"
  | .argCountMismatch name expected found =>
      "Function \x27" ++ name ++ "\x27 expects " ++ toString expected ++
      " argument(s), got " ++ toString found
  | .typeMismatch expected found =>
      "Type mismatch: expected " ++ expected ++ ", found " ++ found
  | .divisionByZero => "Division by zero"
  | .indexOutOfBounds index len =>
      "Index " ++ toString index ++ " out of bounds (length " ++ toString len ++ ")"
  | .keyNotFound k => "Key \x27" ++ k ++ "\x27 not found in map"
  | .genericError msg => msg
  | .returnSignal _ => "internal return signal"
  | .stopSignal code => "Script stopped with exit code " ++ toString code
  | _ => ""

/-- `LatchError::default_hint`, for the variants embedded here. -/
def errHint : LatchError → String
  | .undefinedVariable _ => "Declare the variable first with \x27:=\x27"
  | .undefinedFunction _ => "Define the function with \x27fn name(...)\x27 before calling it"
  | .argCountMismatch _ _ _ => "Check the function signature"
  | .divisionByZero => "Check the divisor is not zero"
  | .indexOutOfBounds _ _ => "Use len() to check bounds first"
  | _ => ""

/-- `format_error` with an empty context (`impl Display for LatchError`):
header, reason, optional hint, final newline trimmed. -/
def errString (e : LatchError) : String :=
  "[latch] " ++ errCategory e ++ "\n  reason: " ++ errReason e ++
  (if errHint e = "" then "" else "\n  hint: " ++ errHint e)

/-! ## Interpreter state -/

/-- The interpreter's mutable context: `Interpreter::env`, the container
store, and the lines printed to standard output so far. -/
structure State where
  env : Env
  store : Store
  out : List String

/-- Per-statement outcome of one `while` iteration's body scan
(the inner `for s in &body` loop with its `Break`/`Continue` matches). -/
inductive LoopSig where
  | normal
  | brk
  | cont
  | erred (e : LatchError)
  | undet

/-- Pop one scope level (`child.into_parent()`); `none` models the
`unwrap` panic, which is unreachable in ordinary runs. -/
def popEnv (st : State) : Option State :=
  (st.env.intoParent).map (fun e => { st with env := e })

/-! ## Pure pieces of the evaluator -/

/-- `Interpreter::int_binop`: Rust `i64` division and remainder
truncate toward zero (`Int.tdiv`/`Int.tmod`); overflow is not
exercised by any claim and is not modelled. -/
def intBinop : BinOp → Int → Int → Res Val
  | .add, a, b => .ok (.int (a + b))
  | .sub, a, b => .ok (.int (a - b))
  | .mul, a, b => .ok (.int (a * b))
  | .div, a, b => if b = 0 then .err .divisionByZero else .ok (.int (Int.tdiv a b))
  | .mod, a, b => if b = 0 then .err .divisionByZero else .ok (.int (Int.tmod a b))
  | .eq, a, b => .ok (.bool (a == b))
  | .notEq, a, b => .ok (.bool (!(a == b)))
  | .lt, a, b => .ok (.bool (decide (a < b)))
  | .gt, a, b => .ok (.bool (decide (b < a)))
  | .ltEq, a, b => .ok (.bool (decide (a ≤ b)))
  | .gtEq, a, b => .ok (.bool (decide (b ≤ a)))
  | _, _, _ => .err (.typeMismatch "bool" "int")

/-- Is `needle` a prefix of `hay`? (for the `in` substring test). -/
def charsPrefix : List Char → List Char → Bool
  | [], _ => true
  | _ :: _, [] => false
  | c :: cs, d :: ds => if c = d then charsPrefix cs ds else false

/-- Does `hay` contain `needle` as a contiguous run?  Models Rust
`str::contains` for plain-string needles. -/
def charsSub : List Char → List Char → Bool
  | needle, [] => charsPrefix needle []
  | needle, c :: rest => charsPrefix needle (c :: rest) || charsSub needle rest

def strContainsSub (hay needle : String) : Bool :=
  charsSub needle.toList hay.toList

/-- List repetition for `list * int` (`n` concatenated copies). -/
def listRepeat (xs : List Val) : Nat → List Val
  | 0 => []
  | k+1 => listRepeat xs k ++ xs

/-- The map keys sorted ascending, as Rust `Vec<String>::sort` leaves
them (byte order on UTF-8 equals the code-point order used here). -/
def sortedKeys (l : List (String × Val)) : List String :=
  List.insertionSort (· ≤ ·) (l.map Prod.fst)

/-- The `keys` built-in (`interpreter.rs` "keys" arm): sort the keys,
wrap each in a string value, allocate a fresh list. -/
def keysBuiltin (args : List Val) (st : State) : Res Val × State :=
  match args.head? with
  | some (.mapRef id) =>
    match getMap st.store id with
    | some contents =>
      let (nid, store') := allocList st.store ((sortedKeys contents).map Val.str)
      (.ok (.listRef nid), { st with store := store' })
    | none => (.undet, st)
  | some v => (.err (.typeMismatch "dict" v.typeName), st)
  | none => (.err (.typeMismatch "dict" "none"), st)

/-- The `values` built-in: values in sorted-key order.  The source
indexes the map with a key drawn from the same map (`guard[k]`), which
cannot miss; the lookup's default is therefore unreachable. -/
def valuesBuiltin (args : List Val) (st : State) : Res Val × State :=
  match args.head? with
  | some (.mapRef id) =>
    match getMap st.store id with
    | some contents =>
      let vals := (sortedKeys contents).map (fun k => (lookupVar contents k).getD .null)
      let (nid, store') := allocList st.store vals
      (.ok (.listRef nid), { st with store := store' })
    | none => (.undet, st)
  | some v => (.err (.typeMismatch "dict" v.typeName), st)
  | none => (.err (.typeMismatch "dict" "none"), st)

/-- The `push` built-in: in-place append through the handle. -/
def pushBuiltin (args : List Val) (st : State) : Res Val × State :=
  match args with
  | [.listRef id, v] =>
    match getList st.store id with
    | some l => (.ok .null, { st with store := setList st.store id (l ++ [v]) })
    | none => (.undet, st)
  | _ => (.err (.typeMismatch "list, value" "invalid args"), st)

/-- The `len` built-in.  String length is the UTF-8 byte count
(Rust `str::len`). -/
def lenBuiltin (args : List Val) (st : State) : Res Val × State :=
  match args.head? with
  | some (.listRef id) =>
    match getList st.store id with
    | some l => (.ok (.int l.length), st)
    | none => (.undet, st)
  | some (.str s) => (.ok (.int s.utf8ByteSize), st)
  | some (.mapRef id) =>
    match getMap st.store id with
    | some m => (.ok (.int m.length), st)
    | none => (.undet, st)
  | some v => (.err (.typeMismatch "list, string, or dict" v.typeName), st)
  | none => (.err (.typeMismatch "list, string, or dict" "none"), st)

/-- Build a map cell from evaluated literal entries by repeated
`HashMap::insert` (later duplicates replace earlier ones). -/
def buildMap (entries : List (String × Val)) : List (String × Val) :=
  entries.foldl (fun acc kv => frameSet acc kv.1 kv.2) []

/-- `Env::index_assign`: find the owning frame, then mutate the
container cell through the store. -/
def Env.indexAssign : Env → String → Val → Val → Store → Res Unit × Store
  | .mk vars parent, name, idx, v, store =>
    match lookupVar vars name with
    | some container =>
      match container, idx with
      | .listRef id, .int i =>
        match getList store id with
        | some l =>
          if i < 0 ∨ (l.length : Int) ≤ i then
            (.err (.indexOutOfBounds i l.length), store)
          else
            (.ok (), setList store id (l.set i.toNat v))
        | none => (.undet, store)
      | .mapRef id, .str key =>
        match getMap store id with
        | some m => (.ok (), setMap store id (frameSet m key v))
        | none => (.undet, store)
      | _, _ => (.err (.typeMismatch "list[int] or dict[string]" "incompatible types"), store)
    | none =>
      match parent with
      | some p => p.indexAssign name idx v store
      | none => (.err (.undefinedVariable name), store)

/-- The surfacing loop after the parallel join (`interpreter.rs` lines
157-162): return the first `Err` in input order, else complete. -/
def firstError : List (Res Unit) → Res Unit
  | [] => .ok ()
  | .err e :: _ => .err e
  | _ :: rest => firstError rest

/-- Did some worker's run stay undetermined (model artifact: a worker
that never finishes never lets the join happen)? -/
def hasUndet : List (Res Unit) → Bool
  | [] => false
  | .undet :: _ => true
  | _ :: rest => hasUndet rest

/-- Outcome of the parallel statement once all workers joined. -/
def joinResults (rs : List (Res Unit)) : Res Unit :=
  if hasUndet rs then .undet else firstError rs

/-! ## The fuel-indexed evaluator

One `Interp` bundles every mutually recursive function of
`Interpreter`; `interp (fuel+1)` makes each call through
`interp fuel`, so all recursion is structural on the fuel and the
definitions reduce inside the kernel. -/

structure Interp where
  eval_expr : Expr → State → Res Val × State
  eval_exprs : List Expr → State → Res (List Val) × State
  eval_entries : List (String × Expr) → State → Res (List (String × Val)) × State
  exec_stmt : Stmt → State → Res Unit × State
  exec_block_inner : List Stmt → State → Res Unit × State
  exec_block : List Stmt → State → Res Unit × State
  call_function : String → List Val → State → Res Val × State
  call_closure : List Param → List Stmt → List Val → Option Env → State → Res Val × State
  bind_params : List Param → List Val → Nat → Nat → Nat → State → Res Unit × State
  run_workers : String → List Stmt → Env → List Val → Store → List String →
      List (Res Unit) × Store × List String
  while_body : List Stmt → State → LoopSig × State
  for_items : String → List Val → List Stmt → State → Res Unit × State
  listcomp_items : String → List Val → Expr → Option Expr → State → Res (List Val) × State
  filter_items : List Param → List Stmt → Option Env → List Val → State → Res (List Val) × State
  binop_eval : BinOp → Val → Val → Store → Res Val × Store
  list_contains : Store → List Val → Val → Option Bool
  values_equal : Store → Val → Val → Option Bool
  values_equal_list : Store → List Val → List Val → Option Bool
  values_equal_entries : Store → List (String × Val) → List (String × Val) → Option Bool
  val_to_string : Store → Val → Option String
  val_to_string_list : Store → List Val → Option (List String)
  val_to_string_entries : Store → List (String × Val) → Option (List String)

/-- The out-of-fuel interpreter: everything is undetermined. -/
def Interp.bot : Interp where
  eval_expr := fun _ st => (.undet, st)
  eval_exprs := fun _ st => (.undet, st)
  eval_entries := fun _ st => (.undet, st)
  exec_stmt := fun _ st => (.undet, st)
  exec_block_inner := fun _ st => (.undet, st)
  exec_block := fun _ st => (.undet, st)
  call_function := fun _ _ st => (.undet, st)
  call_closure := fun _ _ _ _ st => (.undet, st)
  bind_params := fun _ _ _ _ _ st => (.undet, st)
  run_workers := fun _ _ _ items store out => (items.map (fun _ => .undet), store, out)
  while_body := fun _ st => (.undet, st)
  for_items := fun _ _ _ st => (.undet, st)
  listcomp_items := fun _ _ _ _ st => (.undet, st)
  filter_items := fun _ _ _ _ st => (.undet, st)
  binop_eval := fun _ _ _ store => (.undet, store)
  list_contains := fun _ _ _ => none
  values_equal := fun _ _ _ => none
  values_equal_list := fun _ _ _ => none
  values_equal_entries := fun _ _ _ => none
  val_to_string := fun _ _ => none
  val_to_string_list := fun _ _ => none
  val_to_string_entries := fun _ _ => none

/-- `fmt::Display for Value`: `none` when the form needs unmodelled
floating-point formatting (or a deeper recursion than the fuel). -/
def val_to_stringF (I : Interp) (store : Store) : Val → Option String
  | .int n => some (toString n)
  | .float _ => none
  | .bool b => some (if b then "true" else "false")
  | .str s => some s
  | .null => some "null"
  | .listRef id =>
    match getList store id with
    | some xs =>
      (I.val_to_string_list store xs).map
        (fun parts => "[" ++ String.intercalate ", " parts ++ "]")
    | none => none
  | .mapRef id =>
    match getMap store id with
    | some m =>
      let sorted := List.insertionSort (fun a b : String × Val => a.1 ≤ b.1) m
      (I.val_to_string_entries store sorted).map
        (fun parts => "\x7b" ++ String.intercalate ", " parts ++ "\x7d")
    | none => none
  | .fnVal _ _ _ => some "<fn>"

def val_to_string_listF (I : Interp) (store : Store) : List Val → Option (List String)
  | [] => some []
  | v :: rest =>
    match I.val_to_string store v with
    | some s => (I.val_to_string_list store rest).map (fun parts => s :: parts)
    | none => none

def val_to_string_entriesF (I : Interp) (store : Store) :
    List (String × Val) → Option (List String)
  | [] => some []
  | (k, v) :: rest =>
    match I.val_to_string store v with
    | some s => (I.val_to_string_entries store rest).map (fun parts => (k ++ ": " ++ s) :: parts)
    | none => none

/-- `values_equal` (`interpreter.rs` lines 1951-1981).  `none` when the
comparison would need unmodelled floating-point equality. -/
def values_equalF (I : Interp) (store : Store) : Val → Val → Option Bool
  | .int x, .int y => some (x == y)
  | .float _, .float _ => none
  | .int _, .float _ => none
  | .float _, .int _ => none
  | .bool x, .bool y => some (x == y)
  | .str x, .str y => some (x == y)
  | .null, .null => some true
  | .listRef x, .listRef y =>
    match getList store x, getList store y with
    | some xs, some ys =>
      if xs.length = ys.length then I.values_equal_list store xs ys else some false
    | _, _ => none
  | .mapRef x, .mapRef y =>
    match getMap store x, getMap store y with
    | some xs, some ys =>
      if xs.length = ys.length then I.values_equal_entries store xs ys else some false
    | _, _ => none
  | _, _ => some false

def values_equal_listF (I : Interp) (store : Store) : List Val → List Val → Option Bool
  | [], [] => some true
  | x :: xs, y :: ys =>
    match I.values_equal store x y with
    | some true => I.values_equal_list store xs ys
    | some false => some false
    | none => none
  | _, _ => some false

def values_equal_entriesF (I : Interp) (store : Store) :
    List (String × Val) → List (String × Val) → Option Bool
  | [], _ => some true
  | (k, v) :: rest, ys =>
    match lookupVar ys k with
    | some yv =>
      match I.values_equal store v yv with
      | some true => I.values_equal_entries store rest ys
      | some false => some false
      | none => none
    | none => some false

/-- `any(|item| values_equal(item, &l))` for the `in` operator. -/
def list_containsF (I : Interp) (store : Store) : List Val → Val → Option Bool
  | [], _ => some false
  | x :: xs, l =>
    match I.values_equal store x l with
    | some true => some true
    | some false => I.list_contains store xs l
    | none => none

/-- `Interpreter::eval_binop` (`interpreter.rs` lines 719-837), arm
order as in the source.  Floating-point arithmetic is unmodelled. -/
def binop_evalF (I : Interp) (op : BinOp) (l r : Val) (store : Store) : Res Val × Store :=
  -- Null equality first
  let lNull : Bool := match l with | .null => true | _ => false
  let rNull : Bool := match r with | .null => true | _ => false
  if (op = .eq ∨ op = .notEq) ∧ (lNull || rNull) then
    let isEq := lNull && rNull
    (.ok (.bool (if op = .eq then isEq else !isEq)), store)
  else
    -- String concatenation
    match op, l, r with
    | .add, .str a, .str b => (.ok (.str (a ++ b)), store)
    | _, _, _ =>
      if op = .inOp then
        match r with
        | .listRef id =>
          match getList store id with
          | some xs =>
            match I.list_contains store xs l with
            | some b => (.ok (.bool b), store)
            | none => (.undet, store)
          | none => (.undet, store)
        | .str hay =>
          match l with
          | .str needle => (.ok (.bool (strContainsSub hay needle)), store)
          | v => (.err (.typeMismatch "string" v.typeName), store)
        | .mapRef id =>
          match getMap store id with
          | some m =>
            match l with
            | .str key => (.ok (.bool (frameHas m key)), store)
            | v => (.err (.typeMismatch "string" v.typeName), store)
          | none => (.undet, store)
        | v => (.err (.typeMismatch "list, string, or dict" v.typeName), store)
      else
        match l, r with
        | .int a, .int b => (intBinop op a b, store)
        | .float _, .float _ => (.undet, store)
        | .int _, .float _ => (.undet, store)
        | .float _, .int _ => (.undet, store)
        | .bool a, .bool b =>
          match op with
          | .and => (.ok (.bool (a && b)), store)
          | .or => (.ok (.bool (a || b)), store)
          | .eq => (.ok (.bool (a == b)), store)
          | .notEq => (.ok (.bool (!(a == b))), store)
          | _ => (.err (.typeMismatch "numeric" "bool"), store)
        | .str a, .str b =>
          match op with
          | .eq => (.ok (.bool (a == b)), store)
          | .notEq => (.ok (.bool (!(a == b))), store)
          | _ => (.err (.typeMismatch "numeric" "string"), store)
        | .listRef x, .listRef y =>
          match op with
          | .eq =>
            match I.values_equal store (.listRef x) (.listRef y) with
            | some b => (.ok (.bool b), store)
            | none => (.undet, store)
          | .notEq =>
            match I.values_equal store (.listRef x) (.listRef y) with
            | some b => (.ok (.bool !b), store)
            | none => (.undet, store)
          | _ => (.err (.typeMismatch "numeric" "list"), store)
        | .listRef id, .int n | .int n, .listRef id =>
          if op = .mul then
            if n < 0 then
              (.err (.genericError "cannot multiply list by negative number"), store)
            else
              match getList store id with
              | some xs =>
                let (nid, store') := allocList store (listRepeat xs n.toNat)
                (.ok (.listRef nid), store')
              | none => (.undet, store)
          else
            (.err (.typeMismatch "numeric" "list and int"), store)
        | .mapRef x, .mapRef y =>
          match op with
          | .eq =>
            match I.values_equal store (.mapRef x) (.mapRef y) with
            | some b => (.ok (.bool b), store)
            | none => (.undet, store)
          | .notEq =>
            match I.values_equal store (.mapRef x) (.mapRef y) with
            | some b => (.ok (.bool !b), store)
            | none => (.undet, store)
          | _ => (.err (.typeMismatch "numeric" "dict"), store)
        | a, b => (.err (.typeMismatch "compatible types" (a.typeName ++ " and " ++ b.typeName)), store)

/-- `Interpreter::eval_expr`. -/
def eval_exprF (I : Interp) (e : Expr) (st : State) : Res Val × State :=
  match e with
  | .intE n => (.ok (.int n), st)
  | .floatE b => (.ok (.float b), st)
  | .boolE b => (.ok (.bool b), st)
  | .strE s => (.ok (.str s), st)
  | .nullE => (.ok .null, st)
  | .listE items =>
    match I.eval_exprs items st with
    | (.ok vs, st1) =>
      let (id, store') := allocList st1.store vs
      (.ok (.listRef id), { st1 with store := store' })
    | (.err e, st1) => (.err e, st1)
    | (.undet, st1) => (.undet, st1)
  | .mapE entries =>
    match I.eval_entries entries st with
    | (.ok kvs, st1) =>
      let (id, store') := allocMap st1.store (buildMap kvs)
      (.ok (.mapRef id), { st1 with store := store' })
    | (.err e, st1) => (.err e, st1)
    | (.undet, st1) => (.undet, st1)
  | .fnE params body =>
    -- closure semantics: capture a snapshot of the current scope chain
    (.ok (.fnVal params body (some st.env)), st)
  | .ident name =>
    match st.env.get name with
    | some v => (.ok v, st)
    | none => (.err (.undefinedVariable name), st)
  | .binop op left right =>
    match I.eval_expr left st with
    | (.ok lv, st1) =>
      match I.eval_expr right st1 with
      | (.ok rv, st2) =>
        let (res, store') := I.binop_eval op lv rv st2.store
        (res, { st2 with store := store' })
      | (.err e, st2) => (.err e, st2)
      | (.undet, st2) => (.undet, st2)
    | (.err e, st1) => (.err e, st1)
    | (.undet, st1) => (.undet, st1)
  | .unary op e1 =>
    match I.eval_expr e1 st with
    | (.ok v, st1) =>
      match op with
      | .neg =>
        match v with
        | .int n => (.ok (.int (-n)), st1)
        | .float _ => (.undet, st1)
        | _ => (.err (.typeMismatch "number" v.typeName), st1)
      | .not => (.ok (.bool (!v.isTruthy)), st1)
    | (.err e, st1) => (.err e, st1)
    | (.undet, st1) => (.undet, st1)
  | .callE name args =>
    match I.eval_exprs args st with
    | (.ok vs, st1) => I.call_function name vs st1
    | (.err e, st1) => (.err e, st1)
    | (.undet, st1) => (.undet, st1)
  | .indexE e1 idxE =>
    match I.eval_expr e1 st with
    | (.ok container, st1) =>
      match I.eval_expr idxE st1 with
      | (.ok idx, st2) =>
        match container, idx with
        | .listRef id, .int i =>
          match getList st2.store id with
          | some l =>
            if i < 0 ∨ (l.length : Int) ≤ i then
              (.err (.indexOutOfBounds i l.length), st2)
            else
              (.ok (l.getD i.toNat .null), st2)
          | none => (.undet, st2)
        | .mapRef id, .str key =>
          match getMap st2.store id with
          | some m =>
            match lookupVar m key with
            | some v => (.ok v, st2)
            | none => (.err (.keyNotFound key), st2)
          | none => (.undet, st2)
        | _, _ =>
          (.err (.typeMismatch "list[int] or dict[string]"
            (container.typeName ++ "[" ++ idx.typeName ++ "]")), st2)
      | (.err e, st2) => (.err e, st2)
      | (.undet, st2) => (.undet, st2)
    | (.err e, st1) => (.err e, st1)
    | (.undet, st1) => (.undet, st1)
  | .orDefault e1 d =>
    -- errors are swallowed, the default is evaluated instead
    match I.eval_expr e1 st with
    | (.ok v, st1) => (.ok v, st1)
    | (.err _, st1) => I.eval_expr d st1
    | (.undet, st1) => (.undet, st1)
  | .nullCoalesce e1 d =>
    match I.eval_expr e1 st with
    | (.ok .null, st1) => I.eval_expr d st1
    | (.ok v, st1) => (.ok v, st1)
    | (.err e, st1) => (.err e, st1)
    | (.undet, st1) => (.undet, st1)
  | .ternary c a b =>
    match I.eval_expr c st with
    | (.ok v, st1) => if v.isTruthy then I.eval_expr a st1 else I.eval_expr b st1
    | (.err e, st1) => (.err e, st1)
    | (.undet, st1) => (.undet, st1)
  | .listComp body var iter cond =>
    match I.eval_expr iter st with
    | (.ok v, st1) =>
      match intoListV st1.store v with
      | .ok items =>
        match I.listcomp_items var items body cond st1 with
        | (.ok vs, st2) =>
          let (id, store') := allocList st2.store vs
          (.ok (.listRef id), { st2 with store := store' })
        | (.err e, st2) => (.err e, st2)
        | (.undet, st2) => (.undet, st2)
      | .err e => (.err e, st1)
      | .undet => (.undet, st1)
    | (.err e, st1) => (.err e, st1)
    | (.undet, st1) => (.undet, st1)

def eval_exprsF (I : Interp) : List Expr → State → Res (List Val) × State
  | [], st => (.ok [], st)
  | e :: rest, st =>
    match I.eval_expr e st with
    | (.ok v, st1) =>
      match I.eval_exprs rest st1 with
      | (.ok vs, st2) => (.ok (v :: vs), st2)
      | (.err er, st2) => (.err er, st2)
      | (.undet, st2) => (.undet, st2)
    | (.err er, st1) => (.err er, st1)
    | (.undet, st1) => (.undet, st1)

def eval_entriesF (I : Interp) : List (String × Expr) → State → Res (List (String × Val)) × State
  | [], st => (.ok [], st)
  | (k, e) :: rest, st =>
    match I.eval_expr e st with
    | (.ok v, st1) =>
      match I.eval_entries rest st1 with
      | (.ok kvs, st2) => (.ok ((k, v) :: kvs), st2)
      | (.err er, st2) => (.err er, st2)
      | (.undet, st2) => (.undet, st2)
    | (.err er, st1) => (.err er, st1)
    | (.undet, st1) => (.undet, st1)

/-- The `finally` arm shared by the ok/caught paths of `Stmt::Try`:
run the block in a fresh child scope; a `finally` error overrides the
earlier outcome, otherwise the earlier outcome stands. -/
def finallyOutcome (I : Interp) (catchResult : Res Unit) (finallyB : Option (List Stmt))
    (st : State) : Res Unit × State :=
  match finallyB with
  | some fb =>
    let p := I.exec_block_inner fb { st with env := st.env.child }
    match popEnv p.2 with
    | none => (.undet, p.2)
    | some stF =>
      match p.1 with
      | .err ef => (.err ef, stF)
      | .undet => (.undet, stF)
      | .ok () => (catchResult, stF)
  | none => (catchResult, st)

/-- `Stmt::Try` (`interpreter.rs` lines 175-220).  Only the
return-signal is exempt from `catch`; on that path `finally` runs
*without* a fresh scope and its result is discarded
(`let _ = self.exec_block_inner(finally_block)`). -/
def tryExecF (I : Interp) (body : List Stmt) (cvar : String) (cbody : List Stmt)
    (finallyB : Option (List Stmt)) (st : State) : Res Unit × State :=
  let p := I.exec_block_inner body { st with env := st.env.child }
  match popEnv p.2 with
  | none => (.undet, p.2)
  | some stP =>
    match p.1 with
    | .undet => (.undet, stP)
    | .err e =>
      match isRetSig e with
      | true =>
        match finallyB with
        | some fb =>
          let q := I.exec_block_inner fb stP
          match q.1 with
          | .undet => (.undet, q.2)
          | _ => (.err e, q.2)
        | none => (.err e, stP)
      | false =>
        let stc := { stP with env := (stP.env.child).set cvar (.str (errString e)) }
        let q := I.exec_block_inner cbody stc
        match popEnv q.2 with
        | none => (.undet, q.2)
        | some stC =>
          match q.1 with
          | .undet => (.undet, stC)
          | rc => finallyOutcome I rc finallyB stC
    | .ok () => finallyOutcome I (.ok ()) finallyB stP

/-- The worker fan-out and join of `Stmt::Parallel` once the header has
been evaluated: run every worker, then surface the first error. -/
def parallelRunF (I : Interp) (var : String) (body : List Stmt) (items : List Val)
    (st : State) : Res Unit × State :=
  let (results, store', out') := I.run_workers var body st.env items st.store st.out
  (joinResults results, { env := st.env, store := store', out := out' })

/-- `Interpreter::exec_stmt`. -/
def exec_stmtF (I : Interp) (s : Stmt) (st : State) : Res Unit × State :=
  match s with
  | .letStmt name value =>
    match I.eval_expr value st with
    | (.ok v, st1) => (.ok (), { st1 with env := st1.env.set name v })
    | (.err e, st1) => (.err e, st1)
    | (.undet, st1) => (.undet, st1)
  | .assign name value =>
    match I.eval_expr value st with
    | (.ok v, st1) =>
      match st1.env.assign name v with
      | some env' => (.ok (), { st1 with env := env' })
      | none => (.err (.undefinedVariable name), st1)
    | (.err e, st1) => (.err e, st1)
    | (.undet, st1) => (.undet, st1)
  | .indexAssign target index value =>
    match I.eval_expr index st with
    | (.ok idx, st1) =>
      match I.eval_expr value st1 with
      | (.ok v, st2) =>
        match target with
        | .ident name =>
          let (r, store') := st2.env.indexAssign name idx v st2.store
          (r, { st2 with store := store' })
        | _ =>
          match I.eval_expr target st2 with
          | (.ok container, st3) =>
            match container, idx with
            | .listRef id, .int i =>
              match getList st3.store id with
              | some l =>
                if i < 0 ∨ (l.length : Int) ≤ i then
                  (.err (.indexOutOfBounds i l.length), st3)
                else
                  (.ok (), { st3 with store := setList st3.store id (l.set i.toNat v) })
              | none => (.undet, st3)
            | .mapRef id, .str key =>
              match getMap st3.store id with
              | some m => (.ok (), { st3 with store := setMap st3.store id (frameSet m key v) })
              | none => (.undet, st3)
            | _, _ => (.err (.typeMismatch "list[int] or dict[string]" "incompatible types"), st3)
          | (.err e, st3) => (.err e, st3)
          | (.undet, st3) => (.undet, st3)
      | (.err e, st2) => (.err e, st2)
      | (.undet, st2) => (.undet, st2)
    | (.err e, st1) => (.err e, st1)
    | (.undet, st1) => (.undet, st1)
  | .ifStmt cond thenB elseS =>
    match I.eval_expr cond st with
    | (.ok v, st1) =>
      if v.isTruthy then I.exec_block thenB st1
      else
        match elseS with
        | some els =>
          match els with
          | .exprStmt (.fnE _ body) => I.exec_block body st1
          | _ => I.exec_stmt els st1
        | none => (.ok (), st1)
    | (.err e, st1) => (.err e, st1)
    | (.undet, st1) => (.undet, st1)
  | .forStmt var iter body =>
    match I.eval_expr iter st with
    | (.ok v, st1) =>
      match intoListV st1.store v with
      | .ok items => I.for_items var items body st1
      | .err e => (.err e, st1)
      | .undet => (.undet, st1)
    | (.err e, st1) => (.err e, st1)
    | (.undet, st1) => (.undet, st1)
  | .parallel var iter workersE body =>
    match I.eval_expr iter st with
    | (.ok v, st1) =>
      match intoListV st1.store v with
      | .ok items =>
        match workersE with
        | some w =>
          match I.eval_expr w st1 with
          | (.ok wv, st2) =>
            match wv.asInt with
            | .ok _ => parallelRunF I var body items st2
            | .err e => (.err e, st2)
            | .undet => (.undet, st2)
          | (.err e, st2) => (.err e, st2)
          | (.undet, st2) => (.undet, st2)
        | none => parallelRunF I var body items st1
      | .err e => (.err e, st1)
      | .undet => (.undet, st1)
    | (.err e, st1) => (.err e, st1)
    | (.undet, st1) => (.undet, st1)
  | .fnDecl name params body =>
    (.ok (), { st with env := st.env.set name (.fnVal params body none) })
  | .ret e =>
    match I.eval_expr e st with
    | (.ok v, st1) => (.err (.returnSignal v), st1)
    | (.err er, st1) => (.err er, st1)
    | (.undet, st1) => (.undet, st1)
  | .tryStmt body cvar cbody finallyB => tryExecF I body cvar cbody finallyB st
  | .constStmt name value =>
    match I.eval_expr value st with
    | (.ok v, st1) => (.ok (), { st1 with env := st1.env.set name v })
    | (.err e, st1) => (.err e, st1)
    | (.undet, st1) => (.undet, st1)
  | .yieldStmt e =>
    match I.eval_expr e st with
    | (.ok v, st1) => (.err (.yieldSignal v), st1)
    | (.err er, st1) => (.err er, st1)
    | (.undet, st1) => (.undet, st1)
  | .stop e =>
    match I.eval_expr e st with
    | (.ok v, st1) =>
      -- `val.as_int().unwrap_or(1)`
      let code : Int := match v with | .int n => n | _ => 1
      (.err (.stopSignal code), st1)
    | (.err er, st1) => (.err er, st1)
    | (.undet, st1) => (.undet, st1)
  | .whileStmt cond body =>
    match I.eval_expr cond st with
    | (.ok v, st1) =>
      if !v.isTruthy then (.ok (), st1)
      else
        let p := I.while_body body { st1 with env := st1.env.child }
        match p.1 with
        | .brk =>
          match popEnv p.2 with
          | some st2 => (.ok (), st2)
          | none => (.undet, p.2)
        | .erred e =>
          match popEnv p.2 with
          | some st2 => (.err e, st2)
          | none => (.undet, p.2)
        | .normal =>
          match popEnv p.2 with
          | some st2 => I.exec_stmt (.whileStmt cond body) st2
          | none => (.undet, p.2)
        | .cont =>
          match popEnv p.2 with
          | some st2 => I.exec_stmt (.whileStmt cond body) st2
          | none => (.undet, p.2)
        | .undet => (.undet, p.2)
    | (.err e, st1) => (.err e, st1)
    | (.undet, st1) => (.undet, st1)
  | .breakStmt => (.err .breakSignal, st)
  | .continueStmt => (.err .continueSignal, st)
  | .exprStmt e =>
    match I.eval_expr e st with
    | (.ok _, st1) => (.ok (), st1)
    | (.err er, st1) => (.err er, st1)
    | (.undet, st1) => (.undet, st1)

/-- `Interpreter::run` / the straight-line part of block execution. -/
def exec_block_innerF (I : Interp) : List Stmt → State → Res Unit × State
  | [], st => (.ok (), st)
  | s :: rest, st =>
    match I.exec_stmt s st with
    | (.ok (), st1) => I.exec_block_inner rest st1
    | (.err e, st1) => (.err e, st1)
    | (.undet, st1) => (.undet, st1)

/-- `Interpreter::exec_block`: child scope around the block, torn down
whatever the outcome. -/
def exec_blockF (I : Interp) (block : List Stmt) (st : State) : Res Unit × State :=
  let p := I.exec_block_inner block { st with env := st.env.child }
  match popEnv p.2 with
  | some st2 => (p.1, st2)
  | none => (.undet, p.2)

/-- `Interpreter::call_function`: built-ins first (those the claims
exercise), then user-defined functions from the environment. -/
def call_functionF (I : Interp) (name : String) (args : List Val) (st : State) :
    Res Val × State :=
  match name with
  | "print" =>
    match args.head? with
    | some v =>
      match I.val_to_string st.store v with
      | some s => (.ok .null, { st with out := st.out ++ [s] })
      | none => (.undet, st)
    | none => (.ok .null, st)
  | "len" => lenBuiltin args st
  | "str" =>
    match args.head? with
    | some v =>
      match I.val_to_string st.store v with
      | some s => (.ok (.str s), st)
      | none => (.undet, st)
    | none => (.ok (.str ""), st)
  | "push" => pushBuiltin args st
  | "keys" => keysBuiltin args st
  | "values" => valuesBuiltin args st
  | "assert" =>
    match args with
    | [] => (.err (.argCountMismatch "assert" 1 0), st)
    | cond :: rest =>
      if cond.isTruthy then (.ok .null, st)
      else
        match rest with
        | msg :: _ =>
          match I.val_to_string st.store msg with
          | some s => (.err (.genericError s), st)
          | none => (.undet, st)
        | [] => (.err (.genericError "Assertion failed"), st)
  | "filter" =>
    match args with
    | [a, b] =>
      match intoListV st.store a with
      | .ok items =>
        match b with
        | .fnVal params body captured =>
          match I.filter_items params body captured items st with
          | (.ok kept, st1) =>
            let (id, store') := allocList st1.store kept
            (.ok (.listRef id), { st1 with store := store' })
          | (.err e, st1) => (.err e, st1)
          | (.undet, st1) => (.undet, st1)
        | v => (.err (.typeMismatch "fn" v.typeName), st)
      | .err e => (.err e, st)
      | .undet => (.undet, st)
    | _ => (.err (.argCountMismatch "filter" 2 args.length), st)
  | _ =>
    match st.env.get name with
    | some (.fnVal params body captured) => I.call_closure params body args captured st
    | _ => (.err (.undefinedFunction name), st)

/-- The parent of the function scope: the captured snapshot for a
closure, a clone of the caller's environment for a declared function. -/
def calleeBase (captured : Option Env) (caller : Env) : Env :=
  match captured with
  | some cap => cap.child
  | none => caller.child

/-- `Interpreter::call_closure` (`interpreter.rs` lines 1909-1948).
Note the caller's environment is restored only *after* a successful
parameter binding — the early `return Err(...)` paths inside the
binding loop leave the callee scope in place. -/
def call_closureF (I : Interp) (params : List Param) (body : List Stmt) (args : List Val)
    (captured : Option Env) (st : State) : Res Val × State :=
  match I.bind_params params args 0 params.length args.length
      { st with env := calleeBase captured st.env } with
  | (.ok (), st1) =>
    let p := I.exec_block_inner body st1
    match p.1 with
    | .ok () => (.ok .null, { p.2 with env := st.env })
    | .err (.returnSignal v) => (.ok v, { p.2 with env := st.env })
    | .err e => (.err e, { p.2 with env := st.env })
    | .undet => (.undet, { p.2 with env := st.env })
  | (.err e, st1) => (.err e, st1)
  | (.undet, st1) => (.undet, st1)

/-- The parameter-binding loop of `call_closure`: positional argument
if present, else the default expression, else `ArgCountMismatch`. -/
def bind_paramsF (I : Interp) : List Param → List Val → Nat → Nat → Nat → State →
    Res Unit × State
  | [], _, _, _, _, st => (.ok (), st)
  | .mk pname pdefault :: rest, args, i, expected, found, st =>
    match args.get? i with
    | some a =>
      I.bind_params rest args (i + 1) expected found { st with env := st.env.set pname a }
    | none =>
      match pdefault with
      | some d =>
        match I.eval_expr d st with
        | (.ok v, st1) =>
          I.bind_params rest args (i + 1) expected found { st1 with env := st1.env.set pname v }
        | (.err e, st1) => (.err e, st1)
        | (.undet, st1) => (.undet, st1)
      | none => (.err (.argCountMismatch pname expected found), st)

/-- One worker per item, in input order (rayon's indexed `collect`
preserves it); every worker runs on its own child of the snapshot,
and every item is attempted regardless of earlier results. -/
def run_workersF (I : Interp) (var : String) (body : List Stmt) (envSnap : Env) :
    List Val → Store → List String → List (Res Unit) × Store × List String
  | [], store, out => ([], store, out)
  | item :: rest, store, out =>
    let p := I.exec_block_inner body ⟨(envSnap.child).set var item, store, out⟩
    let q := I.run_workers var body envSnap rest p.2.store p.2.out
    (p.1 :: q.1, q.2.1, q.2.2)

/-- The per-iteration statement scan of `Stmt::While`, with its
`BreakSignal`/`ContinueSignal` interception. -/
def while_bodyF (I : Interp) : List Stmt → State → LoopSig × State
  | [], st => (.normal, st)
  | s :: rest, st =>
    match I.exec_stmt s st with
    | (.ok (), st1) => I.while_body rest st1
    | (.err .breakSignal, st1) => (.brk, st1)
    | (.err .continueSignal, st1) => (.cont, st1)
    | (.err e, st1) => (.erred e, st1)
    | (.undet, st1) => (.undet, st1)

/-- The item loop of `Stmt::For`: child scope per item; an error
propagates via `?` before the scope pop. -/
def for_itemsF (I : Interp) (var : String) : List Val → List Stmt → State →
    Res Unit × State
  | [], _, st => (.ok (), st)
  | item :: rest, body, st =>
    match I.exec_block_inner body { st with env := (st.env.child).set var item } with
    | (.ok (), st1) =>
      match popEnv st1 with
      | some st2 => I.for_items var rest body st2
      | none => (.undet, st1)
    | (.err e, st1) => (.err e, st1)
    | (.undet, st1) => (.undet, st1)

/-- The item loop of a list comprehension: child scope, optional
truthiness filter, body value collected. -/
def listcomp_itemsF (I : Interp) (var : String) : List Val → Expr → Option Expr → State →
    Res (List Val) × State
  | [], _, _, st => (.ok [], st)
  | item :: rest, bodyE, condO, st =>
    let st1 : State := { st with env := (st.env.child).set var item }
    let cnd : Res Bool × State :=
      match condO with
      | some c =>
        match I.eval_expr c st1 with
        | (.ok v, st2) => (.ok v.isTruthy, st2)
        | (.err e, st2) => (.err e, st2)
        | (.undet, st2) => (.undet, st2)
      | none => (.ok true, st1)
    match cnd with
    | (.ok includeIt, st2) =>
      if includeIt then
        match I.eval_expr bodyE st2 with
        | (.ok bv, st3) =>
          match popEnv st3 with
          | some st4 =>
            match I.listcomp_items var rest bodyE condO st4 with
            | (.ok vs, st5) => (.ok (bv :: vs), st5)
            | (.err e, st5) => (.err e, st5)
            | (.undet, st5) => (.undet, st5)
          | none => (.undet, st3)
        | (.err e, st3) => (.err e, st3)
        | (.undet, st3) => (.undet, st3)
      else
        match popEnv st2 with
        | some st4 => I.listcomp_items var rest bodyE condO st4
        | none => (.undet, st2)
    | (.err e, st2) => (.err e, st2)
    | (.undet, st2) => (.undet, st2)

/-- The item loop of the `filter` built-in: keep the items on which
the function's result is truthy. -/
def filter_itemsF (I : Interp) (params : List Param) (body : List Stmt)
    (captured : Option Env) : List Val → State → Res (List Val) × State
  | [], st => (.ok [], st)
  | item :: rest, st =>
    match I.call_closure params body [item] captured st with
    | (.ok v, st1) =>
      match I.filter_items params body captured rest st1 with
      | (.ok kept, st2) => (.ok (if v.isTruthy then item :: kept else kept), st2)
      | (.err e, st2) => (.err e, st2)
      | (.undet, st2) => (.undet, st2)
    | (.err e, st1) => (.err e, st1)
    | (.undet, st1) => (.undet, st1)

/-- One evaluator level: every recursive call goes through the
next-smaller level `I`. -/
def mkStep (I : Interp) : Interp where
  eval_expr := eval_exprF I
  eval_exprs := eval_exprsF I
  eval_entries := eval_entriesF I
  exec_stmt := exec_stmtF I
  exec_block_inner := exec_block_innerF I
  exec_block := exec_blockF I
  call_function := call_functionF I
  call_closure := call_closureF I
  bind_params := bind_paramsF I
  run_workers := run_workersF I
  while_body := while_bodyF I
  for_items := for_itemsF I
  listcomp_items := listcomp_itemsF I
  filter_items := filter_itemsF I
  binop_eval := binop_evalF I
  list_contains := list_containsF I
  values_equal := values_equalF I
  values_equal_list := values_equal_listF I
  values_equal_entries := values_equal_entriesF I
  val_to_string := val_to_stringF I
  val_to_string_list := val_to_string_listF I
  val_to_string_entries := val_to_string_entriesF I

/-- The evaluator at a given fuel. -/
def interp : Nat → Interp
  | 0 => Interp.bot
  | fuel + 1 => mkStep (interp fuel)

/-! ### Named entry points -/

def evalExpr (fuel : Nat) : Expr → State → Res Val × State := (interp fuel).eval_expr

def execStmt (fuel : Nat) : Stmt → State → Res Unit × State := (interp fuel).exec_stmt

def execBlockInner (fuel : Nat) : List Stmt → State → Res Unit × State :=
  (interp fuel).exec_block_inner

def callFunction (fuel : Nat) : String → List Val → State → Res Val × State :=
  (interp fuel).call_function

def callClosure (fuel : Nat) : List Param → List Stmt → List Val → Option Env → State →
    Res Val × State := (interp fuel).call_closure

def bindParams (fuel : Nat) : List Param → List Val → Nat → Nat → Nat → State →
    Res Unit × State := (interp fuel).bind_params

def runWorkers (fuel : Nat) : String → List Stmt → Env → List Val → Store → List String →
    List (Res Unit) × Store × List String := (interp fuel).run_workers

/-- The empty starting state of `Interpreter::new`. -/
def initState : State := ⟨Env.mk [] none, ⟨[], [], 0⟩, []⟩

/-- `Command::Run` after lex/parse/analysis: `Interpreter::new` then
`interp.run(ast)`. -/
def runProgram (fuel : Nat) (prog : List Stmt) : Res Unit × State :=
  execBlockInner fuel prog initState

/-- The process exit code of `latch run` (`main.rs` lines 101-110):
`stop N` exits with `N`, any other surfaced error exits with `1`,
otherwise `0`.  `none` when the run is undetermined. -/
def mainExitCode (fuel : Nat) (prog : List Stmt) : Option Int :=
  match (runProgram fuel prog).1 with
  | .ok () => some 0
  | .err (.stopSignal c) => some c
  | .err _ => some 1
  | .undet => none

/-! ## Concrete programs used by the theorems -/

/-- `try { stop 7 } catch e { print("caught") } finally { print("done") }`. -/
def progTryStop : List Stmt :=
  [.tryStmt [.stop (.intE 7)] "e"
    [.exprStmt (.callE "print" [.strE "caught"])]
    (some [.exprStmt (.callE "print" [.strE "done"])])]

/-- `x := 1`; `f := fn(){ return x }`; `x = 2`; `print(f())`. -/
def progClosureSnapshot : List Stmt :=
  [.letStmt "x" (.intE 1),
   .letStmt "f" (.fnE [] [.ret (.ident "x")]),
   .assign "x" (.intE 2),
   .exprStmt (.callE "print" [.callE "f" []])]

/-- `fn f() { parallel v in [7] { return 42 } }`; `r := f()`. -/
def progParallelReturn : List Stmt :=
  [.fnDecl "f" [] [.parallel "v" (.listE [.intE 7]) none [.ret (.intE 42)]],
   .letStmt "r" (.callE "f" [])]

/-- `l := [k]`; `fn f() { parallel v in [n, m] { push(l, v); return v } }`;
`r := f()`. -/
def progParallelReturnPush (k n m : Int) : List Stmt :=
  [.letStmt "l" (.listE [.intE k]),
   .fnDecl "f" [] [.parallel "v" (.listE [.intE n, .intE m]) none
      [.exprStmt (.callE "push" [.ident "l", .ident "v"]), .ret (.ident "v")]],
   .letStmt "r" (.callE "f" [])]

/-- `fn g() { try { return 1 } catch e { } finally { x := 1/0 } }`;
`r := g()`. -/
def progTryReturnFinally : List Stmt :=
  [.fnDecl "g" [] [.tryStmt [.ret (.intE 1)] "e" []
      (some [.letStmt "x" (.binop .div (.intE 1) (.intE 0))])],
   .letStmt "r" (.callE "g" [])]

/-- `x := 1`; `fn f(x, y) { }`; `f(99) or 0` — the call's
parameter-binding failure leaves the callee scope in place. -/
def progArgBindLeak : List Stmt :=
  [.letStmt "x" (.intE 1),
   .fnDecl "f" [.mk "x" none, .mk "y" none] [],
   .exprStmt (.orDefault (.callE "f" [.intE 99]) (.intE 0))]

/-- `a := [n1, n2]`; `b := a`; `b[0] = m`. -/
def progIndexAlias (n1 n2 m : Int) : List Stmt :=
  [.letStmt "a" (.listE [.intE n1, .intE n2]),
   .letStmt "b" (.ident "a"),
   .indexAssign (.ident "b") (.intE 0) (.intE m)]

/-- `a := [n]`; `b := a`; `push(b, m)`. -/
def progPushAlias (n m : Int) : List Stmt :=
  [.letStmt "a" (.listE [.intE n]),
   .letStmt "b" (.ident "a"),
   .exprStmt (.callE "push" [.ident "b", .intE m])]

/-- `c := 0`; `while true { parallel v in [1] { break }; c = 9 };
c = c + 1` — the worker's break-signal, surfaced after the join, is
recognised by the enclosing `while` and exits it. -/
def progParallelBreak : List Stmt :=
  [.letStmt "c" (.intE 0),
   .whileStmt (.boolE true)
     [.parallel "v" (.listE [.intE 1]) none [.breakStmt],
      .assign "c" (.intE 9)],
   .assign "c" (.binop .add (.ident "c") (.intE 1))]

/-- `l := []`; `parallel v in [0, 1] workers=2 { push(l, v);
x := 1/v }` — worker 0 errors, worker 1 still runs. -/
def progParallelFirstError : List Stmt :=
  [.letStmt "l" (.listE []),
   .parallel "v" (.listE [.intE 0, .intE 1]) (some (.intE 2))
     [.exprStmt (.callE "push" [.ident "l", .ident "v"]),
      .letStmt "x" (.binop .div (.intE 1) (.ident "v"))]]

/-- A state holding one map cell `{"b": 1, "a": 2}`. -/
def stMapW : State :=
  ⟨Env.mk [] none, ⟨[], [(0, [("b", Val.int 1), ("a", Val.int 2)])], 1⟩, []⟩

/-- A state binding `x` to a list handle (for the no-copy lemma). -/
def stAliasW : State :=
  ⟨Env.mk [("x", Val.listRef 0)] none, ⟨[(0, [Val.int 5])], [], 1⟩, []⟩

/-! ## Theorems -/

/-- C9: truthiness at every condition site (all of which call
`Value::is_truthy`) is: boolean `false`, `null`, the integer `0` and
the empty string are falsy; every other value — floats (including
`0.0`), list handles and map handles (including empty ones) — is
truthy.  The `!` operator, the ternary and `assert` branch on exactly
this predicate. -/
theorem truthiness_characterization :
    (∀ v : Val, v.isTruthy = false ↔
      (v = .bool false ∨ v = .null ∨ v = .int 0 ∨ v = .str "")) ∧
    (∀ bits, (Val.float bits).isTruthy = true) ∧
    (∀ id, (Val.listRef id).isTruthy = true) ∧
    (∀ id, (Val.mapRef id).isTruthy = true) ∧
    (∀ fuel (n : Int) (st : State),
      evalExpr (fuel + 2) (.unary .not (.intE n)) st
        = (.ok (.bool (!(Val.int n).isTruthy)), st)) ∧
    (∀ fuel (n : Int) a b (st : State),
      evalExpr (fuel + 2) (.ternary (.intE n) a b) st
        = if (Val.int n).isTruthy then evalExpr (fuel + 1) a st
          else evalExpr (fuel + 1) b st) ∧
    (∀ fuel (v : Val) (st : State),
      callFunction (fuel + 1) "assert" [v] st
        = if v.isTruthy then (.ok .null, st)
          else (.err (.genericError "Assertion failed"), st)) := by
  refine ⟨?_, fun _ => rfl, fun _ => rfl, fun _ => rfl,
    fun _ _ _ => rfl, fun _ _ _ _ _ => rfl, fun _ _ _ => rfl⟩
  intro v
  cases v with
  | bool b => cases b <;> simp [Val.isTruthy]
  | null => simp [Val.isTruthy]
  | int n => simp [Val.isTruthy]
  | str s => simp [Val.isTruthy, String.ext_iff]
  | float bits => simp [Val.isTruthy]
  | listRef id => simp [Val.isTruthy]
  | mapRef id => simp [Val.isTruthy]
  | fnVal p b c => simp [Val.isTruthy]

/-- C5: lists are shared-mutable — after `a := [n1,n2]; b := a;
b[0] = m`, reading `a[0]` observes `m`; `push` through one alias is
observed through the other; and in general `y := x` binds `y` to the
very value of `x` (for a container, the same cell handle — nothing is
copied). -/
theorem container_aliasing :
    (∀ n1 n2 m : Int,
      (runProgram 64 (progIndexAlias n1 n2 m)).1 = .ok () ∧
      evalExpr 16 (.indexE (.ident "a") (.intE 0)) (runProgram 64 (progIndexAlias n1 n2 m)).2
        = (.ok (.int m), (runProgram 64 (progIndexAlias n1 n2 m)).2)) ∧
    (∀ n m : Int,
      (runProgram 64 (progPushAlias n m)).1 = .ok () ∧
      (runProgram 64 (progPushAlias n m)).2.env.get "a" = some (.listRef 0) ∧
      (runProgram 64 (progPushAlias n m)).2.env.get "b" = some (.listRef 0) ∧
      getList (runProgram 64 (progPushAlias n m)).2.store 0 = some [.int n, .int m]) ∧
    (∀ fuel x y (st : State) v, st.env.get x = some v →
      execStmt (fuel + 2) (.letStmt y (.ident x)) st
        = (.ok (), { st with env := st.env.set y v })) := by
  refine ⟨fun _ _ _ => ⟨rfl, rfl⟩, fun _ _ => ⟨rfl, rfl, rfl, rfl⟩, ?_⟩
  intro fuel x y st v h
  have hid : evalExpr (fuel + 1) (.ident x) st = (.ok v, st) := by
    have k2 : evalExpr (fuel + 1) (.ident x) st
        = (match st.env.get x with
           | some v => (.ok v, st)
           | none => (.err (.undefinedVariable x), st)) := rfl
    rw [k2, h]
  have key : execStmt (fuel + 2) (.letStmt y (.ident x)) st
      = (match evalExpr (fuel + 1) (.ident x) st with
         | (.ok v, st1) => (.ok (), { st1 with env := st1.env.set y v })
         | (.err e, st1) => (.err e, st1)
         | (.undet, st1) => (.undet, st1)) := rfl
  rw [key, hid]

/-- Witness for C5's no-copy conjunct: `y := x` rebinds the same list
handle. -/
theorem container_aliasing_witness :
    execStmt 10 (.letStmt "y" (.ident "x")) stAliasW
      = (.ok (), { stAliasW with env := stAliasW.env.set "y" (.listRef 0) }) :=
  container_aliasing.2.2 8 "x" "y" stAliasW (.listRef 0) rfl

/-- C6: an anonymous function captures a snapshot of the scope chain at
evaluation time, so `x := 1; f := fn(){ return x }; x = 2; print(f())`
prints `1` even though `x` is `2` at call time. -/
theorem closure_snapshot :
    (∀ fuel ps b (st : State),
      evalExpr (fuel + 1) (.fnE ps b) st = (.ok (.fnVal ps b (some st.env)), st)) ∧
    (runProgram 64 progClosureSnapshot).1 = .ok () ∧
    (runProgram 64 progClosureSnapshot).2.out = ["1"] ∧
    (runProgram 64 progClosureSnapshot).2.env.get "x" = some (.int 2) :=
  ⟨fun _ _ _ _ => rfl, rfl, rfl, rfl⟩

/-- C7: `expr or default` swallows every evaluation error — the
default is evaluated in the state the failed evaluation left behind —
while a successful `expr` returns its value without touching the
default; division by zero, a type mismatch and an out-of-bounds index
are all swallowed alike. -/
theorem or_default_swallows :
    (∀ fuel e d st ε st1, evalExpr fuel e st = (.err ε, st1) →
        evalExpr (fuel + 1) (.orDefault e d) st = evalExpr fuel d st1) ∧
    (∀ fuel e d st v st1, evalExpr fuel e st = (.ok v, st1) →
        evalExpr (fuel + 1) (.orDefault e d) st = (.ok v, st1)) ∧
    (evalExpr 16 (.orDefault (.binop .div (.intE 1) (.intE 0)) (.intE 5)) initState).1
      = .ok (.int 5) ∧
    (evalExpr 16 (.orDefault (.binop .add (.strE "a") (.intE 1)) (.intE 2)) initState).1
      = .ok (.int 2) ∧
    (evalExpr 16 (.orDefault (.indexE (.listE [.intE 1]) (.intE 9)) (.intE 3)) initState).1
      = .ok (.int 3) := by
  refine ⟨?_, ?_, rfl, rfl, rfl⟩
  · intro fuel e d st ε st1 h
    have key : evalExpr (fuel + 1) (.orDefault e d) st =
        (match evalExpr fuel e st with
         | (.ok v, st1) => (.ok v, st1)
         | (.err _, st1) => evalExpr fuel d st1
         | (.undet, st1) => (.undet, st1)) := rfl
    rw [key, h]
  · intro fuel e d st v st1 h
    have key : evalExpr (fuel + 1) (.orDefault e d) st =
        (match evalExpr fuel e st with
         | (.ok v, st1) => (.ok v, st1)
         | (.err _, st1) => evalExpr fuel d st1
         | (.undet, st1) => (.undet, st1)) := rfl
    rw [key, h]

/-- Witness for C7: at `(1/0) or 5`, the division-by-zero error is
swallowed and the default is evaluated in the post-failure state. -/
theorem or_default_swallows_witness :
    evalExpr 9 (.orDefault (.binop .div (.intE 1) (.intE 0)) (.intE 5)) initState
      = evalExpr 8 (.intE 5) initState :=
  or_default_swallows.1 8 (.binop .div (.intE 1) (.intE 0)) (.intE 5) initState
    .divisionByZero initState rfl

/-- C3 counterexample: on
`try { stop 7 } catch e { print("caught") } finally { print("done") }`
the output is not `done` alone and the exit code is not `7` — the
catch handler does run. -/
theorem try_stop_counterexample :
    (runProgram 64 progTryStop).2.out ≠ ["done"] ∧
    mainExitCode 64 progTryStop ≠ some 7 := by
  constructor
  · have h : (runProgram 64 progTryStop).2.out = ["caught", "done"] := rfl
    rw [h]; decide
  · have h : mainExitCode 64 progTryStop = some 0 := rfl
    rw [h]; decide

/-- C3 amended: `catch` does trap the stop-signal (only the
return-signal is exempt), so the program prints `caught` then `done`,
completes normally, and the process exits with code `0`. -/
theorem try_stop_amended :
    (runProgram 64 progTryStop).1 = .ok () ∧
    (runProgram 64 progTryStop).2.out = ["caught", "done"] ∧
    mainExitCode 64 progTryStop = some 0 :=
  ⟨rfl, rfl, rfl⟩

/-- C2 counterexample: a `return 42` inside a parallel worker body
*does* cause the enclosing function call to return `42` — the
collected return-signal is re-raised after the join and unwinds the
call. -/
theorem parallel_return_counterexample :
    (runProgram 64 progParallelReturn).2.env.get "r" = some (.int 42) ∧
    Val.int 42 ≠ Val.null :=
  ⟨rfl, fun h => Val.noConfusion h⟩

/-- C2 amended: a signal raised in a worker does not cancel the other
workers — every item is still attempted — and the smallest-index
worker's signal is surfaced after the join as the parallel statement's
error, where it then behaves exactly as that signal would at the
statement's site: a surfaced return-signal makes the enclosing
function return its value.  Here worker 0's `return n` wins, `f()`
evaluates to `n`, and both workers' `push`es landed. -/
theorem parallel_signal_after_join :
    (∀ k n m : Int,
      (runProgram 80 (progParallelReturnPush k n m)).1 = .ok () ∧
      (runProgram 80 (progParallelReturnPush k n m)).2.env.get "r" = some (.int n) ∧
      (runProgram 80 (progParallelReturnPush k n m)).2.env.get "l" = some (.listRef 0) ∧
      (getList (runProgram 80 (progParallelReturnPush k n m)).2.store 0).map List.length
        = some 3) ∧
    ((runProgram 80 progParallelBreak).1 = .ok () ∧
      (runProgram 80 progParallelBreak).2.env.get "c" = some (.int 1)) :=
  ⟨fun _ _ _ => ⟨rfl, rfl, rfl, rfl⟩, rfl, rfl⟩

/-! ### Lemmas about the parallel join -/

theorem firstError_all_ok (rs : List (Res Unit)) (h : ∀ r ∈ rs, r = .ok ()) :
    firstError rs = .ok () := by
  induction rs with
  | nil => rfl
  | cons r rest ih =>
    have hr := h r (List.mem_cons_self r rest)
    subst hr
    exact ih (fun x hx => h x (List.mem_cons_of_mem _ hx))

theorem hasUndet_all_ok (rs : List (Res Unit)) (h : ∀ r ∈ rs, r = .ok ()) :
    hasUndet rs = false := by
  induction rs with
  | nil => rfl
  | cons r rest ih =>
    have hr := h r (List.mem_cons_self r rest)
    subst hr
    exact ih (fun x hx => h x (List.mem_cons_of_mem _ hx))

theorem hasUndet_none (rs : List (Res Unit)) (h : ∀ r ∈ rs, r ≠ .undet) :
    hasUndet rs = false := by
  induction rs with
  | nil => rfl
  | cons r rest ih =>
    have tail := ih (fun x hx => h x (List.mem_cons_of_mem _ hx))
    cases r with
    | ok a => exact tail
    | err e => exact tail
    | undet => exact absurd rfl (h .undet (List.mem_cons_self _ _))

theorem firstError_err_split (rs : List (Res Unit)) (e : LatchError)
    (hnu : hasUndet rs = false) (h : firstError rs = .err e) :
    ∃ pre post, rs = pre ++ .err e :: post ∧ ∀ r ∈ pre, r = .ok () := by
  induction rs with
  | nil => exact absurd h (by simp [firstError])
  | cons r rest ih =>
    cases r with
    | ok a =>
      obtain ⟨⟩ := a
      obtain ⟨pre, post, heq, hpre⟩ := ih hnu h
      refine ⟨.ok () :: pre, post, by rw [heq]; rfl, ?_⟩
      intro x hx
      rcases List.mem_cons.mp hx with hx | hx
      · exact hx
      · exact hpre x hx
    | err e' =>
      have : e' = e := by
        have h' : Res.err (α := Unit) e' = .err e := h
        injection h'
      subst this
      exact ⟨[], rest, rfl, by intro x hx; exact absurd hx (List.not_mem_nil x)⟩
    | undet => exact absurd hnu (by simp [hasUndet])

theorem firstError_has_err (rs : List (Res Unit))
    (h : ∃ r ∈ rs, ∃ e, r = .err e) : ∃ e, firstError rs = .err e := by
  induction rs with
  | nil =>
    obtain ⟨r, hr, _⟩ := h
    exact absurd hr (List.not_mem_nil r)
  | cons r rest ih =>
    cases r with
    | ok a =>
      obtain ⟨⟩ := a
      refine ih ?_
      obtain ⟨r', hr', e', he'⟩ := h
      rcases List.mem_cons.mp hr' with hx | hx
      · subst hx; exact absurd he' (by simp)
      · exact ⟨r', hx, e', he'⟩
    | err e' => exact ⟨e', rfl⟩
    | undet =>
      refine ih ?_
      obtain ⟨r', hr', e', he'⟩ := h
      rcases List.mem_cons.mp hr' with hx | hx
      · subst hx; exact absurd he' (by simp)
      · exact ⟨r', hx, e', he'⟩

/-- C1: the parallel statement attempts every input item — the worker
result list always has one entry per item, whatever the earlier
results were — and after the join the surfaced outcome is the error of
the smallest input index that errored (everything before it succeeded,
later errors are discarded); if every worker succeeded the statement
completes silently, and if some worker errored (and all terminated) an
error is surfaced.  Concretely, with two workers where worker 0
divides by zero, worker 1 still pushes, and the statement surfaces
worker 0's error. -/
theorem parallel_completion_first_error :
    (∀ fuel var body env items store out,
      (runWorkers fuel var body env items store out).1.length = items.length) ∧
    (∀ rs : List (Res Unit), (∀ r ∈ rs, r = .ok ()) → joinResults rs = .ok ()) ∧
    (∀ rs e, joinResults rs = .err e →
      ∃ pre post, rs = pre ++ .err e :: post ∧ ∀ r ∈ pre, r = .ok ()) ∧
    (∀ rs : List (Res Unit), (∀ r ∈ rs, r ≠ .undet) → (∃ r ∈ rs, ∃ e, r = .err e) →
      ∃ e, joinResults rs = .err e) ∧
    ((runProgram 80 progParallelFirstError).1 = .err .divisionByZero ∧
      (getList (runProgram 80 progParallelFirstError).2.store 0).map List.length
        = some 2) := by
  refine ⟨?_, ?_, ?_, ?_, rfl, rfl⟩
  · intro fuel
    induction fuel with
    | zero =>
      intro var body env items store out
      show (items.map (fun _ => (Res.undet : Res Unit))).length = items.length
      simp
    | succ n ih =>
      intro var body env items store out
      cases items with
      | nil => rfl
      | cons item rest =>
        show ((run_workersF (interp n) var body env (item :: rest) store out)).1.length
          = (item :: rest).length
        simp only [run_workersF, List.length_cons]
        exact congrArg (· + 1) (ih var body env rest _ _)
  · intro rs h
    unfold joinResults
    rw [hasUndet_all_ok rs h]
    simpa using firstError_all_ok rs h
  · intro rs e h
    unfold joinResults at h
    cases hu : hasUndet rs with
    | true => rw [hu] at h; exact absurd h (by simp)
    | false =>
      rw [hu] at h
      simp at h
      exact firstError_err_split rs e hu h
  · intro rs hnu he
    obtain ⟨e, hfe⟩ := firstError_has_err rs he
    refine ⟨e, ?_⟩
    unfold joinResults
    rw [hasUndet_none rs hnu]
    simpa using hfe

/-- Witness for C1, at concrete worker-result lists. -/
theorem parallel_completion_first_error_witness :
    joinResults [.ok (), .ok ()] = .ok () ∧
    (∃ pre post, ([.ok (), .err .divisionByZero, .err (.keyNotFound "k")] : List (Res Unit))
      = pre ++ .err .divisionByZero :: post ∧ ∀ r ∈ pre, r = .ok ()) ∧
    (∃ e, joinResults [.ok (), .err .divisionByZero] = .err e) := by
  refine ⟨?_, ?_, ?_⟩
  · refine parallel_completion_first_error.2.1 _ ?_
    intro r hr
    rcases List.mem_cons.mp hr with h | h
    · exact h
    · rcases List.mem_cons.mp h with h | h
      · exact h
      · exact absurd h (List.not_mem_nil r)
  · exact parallel_completion_first_error.2.2.1 _ .divisionByZero rfl
  · refine parallel_completion_first_error.2.2.2.1 _ ?_ ?_
    · intro r hr
      rcases List.mem_cons.mp hr with h | h
      · subst h; simp
      · rcases List.mem_cons.mp h with h | h
        · subst h; simp
        · exact absurd h (List.not_mem_nil r)
    · exact ⟨.err .divisionByZero, by simp, .divisionByZero, rfl⟩

/-! ### Parameter binding and environment restoration -/

/-- When every parameter has a positional argument, the binding loop
cannot fail (it can only exhaust fuel). -/
theorem bind_params_covered :
    ∀ fuel params args i exp fnd (st : State), i + params.length ≤ args.length →
      (bindParams fuel params args i exp fnd st).1 = .ok () ∨
      (bindParams fuel params args i exp fnd st).1 = .undet := by
  intro fuel
  induction fuel with
  | zero =>
    intro params args i exp fnd st _
    right; rfl
  | succ n ih =>
    intro params args i exp fnd st h
    cases params with
    | nil => left; rfl
    | cons p rest =>
      obtain ⟨pname, pdefault⟩ := p
      have hi : i < args.length := by
        simp only [List.length_cons] at h; omega
      obtain ⟨a, ha⟩ : ∃ a, args.get? i = some a := by
        cases hg : args.get? i with
        | none => exact absurd (List.get?_eq_none.mp hg) (by omega)
        | some a => exact ⟨a, rfl⟩
      have key : bindParams (n + 1) (.mk pname pdefault :: rest) args i exp fnd st
          = bindParams n rest args (i + 1) exp fnd { st with env := st.env.set pname a } := by
        show bind_paramsF (interp n) (.mk pname pdefault :: rest) args i exp fnd st = _
        simp only [bind_paramsF]
        rw [ha]
        rfl
      rw [key]
      exact ih rest args (i + 1) exp fnd _
        (by simp only [List.length_cons] at h; omega)

/-- C10 amended: when parameter binding succeeds — in particular,
whenever every parameter receives a positional argument — the caller's
environment is restored unchanged after `call_closure` of a declared
(non-closure) function, whatever the body did and whatever the call's
outcome; body-level `=` assignments are applied to the discarded clone.
(The un-amended claim fails on the early-return paths of a *failed*
parameter binding, which skip the restoration.) -/
theorem call_restores_caller_env :
    ∀ fuel params body args (st : State),
      params.length ≤ args.length →
      (callClosure (fuel + 1) params body args none st).1 ≠ .undet →
      ((callClosure (fuel + 1) params body args none st).2).env = st.env := by
  intro fuel params body args st hlen hne
  have key : callClosure (fuel + 1) params body args none st
      = call_closureF (interp fuel) params body args none st := rfl
  rw [key] at hne ⊢
  have htot := bind_params_covered fuel params args 0 params.length args.length
    { st with env := calleeBase none st.env } (by omega)
  simp only [bindParams] at htot
  cases hbp : (interp fuel).bind_params params args 0 params.length args.length
      { st with env := calleeBase none st.env } with
  | mk rb st1 =>
    rw [hbp] at htot
    rcases htot with hok | hund
    · simp at hok
      subst hok
      have main : call_closureF (interp fuel) params body args none st
          = (match ((interp fuel).exec_block_inner body st1).1 with
             | .ok () => (Res.ok Val.null,
                 { ((interp fuel).exec_block_inner body st1).2 with env := st.env })
             | .err (.returnSignal v) => (.ok v,
                 { ((interp fuel).exec_block_inner body st1).2 with env := st.env })
             | .err e => (.err e,
                 { ((interp fuel).exec_block_inner body st1).2 with env := st.env })
             | .undet => (.undet,
                 { ((interp fuel).exec_block_inner body st1).2 with env := st.env })) := by
        unfold call_closureF
        rw [hbp]
      rw [main]
      cases hexec : ((interp fuel).exec_block_inner body st1).1 with
      | ok a => cases a; rfl
      | err e => cases e <;> rfl
      | undet => rfl
    · simp at hund
      subst hund
      have main2 : call_closureF (interp fuel) params body args none st = (.undet, st1) := by
        unfold call_closureF
        rw [hbp]
      exact absurd (by rw [main2]) hne

/-- Witness for C10: a zero-parameter call restores the caller's
environment. -/
theorem call_restores_caller_env_witness :
    ((callClosure 6 [] [] [] none initState).2).env = initState.env := by
  refine call_restores_caller_env 5 [] [] [] initState (by simp) ?_
  have h : (callClosure 6 [] [] [] none initState).1 = .ok .null := rfl
  rw [h]
  simp

/-- C10 counterexample: `x := 1; fn f(x, y) { }; f(99) or 0` — the
failed parameter binding leaves the callee scope installed, so the
caller afterwards reads `x` as `99`, not `1`: a call *did* change the
caller's visible bindings. -/
theorem arg_bind_leak_counterexample :
    (runProgram 64 progArgBindLeak).1 = .ok () ∧
    (runProgram 64 progArgBindLeak).2.env.get "x" = some (.int 99) ∧
    Val.int 99 ≠ Val.int 1 := by
  refine ⟨rfl, rfl, ?_⟩
  intro h
  injection h with h'
  exact absurd h' (by decide)

/-! ### Try / finally -/

/-- C4 counterexample: in
`fn g() { try { return 1 } catch e { } finally { x := 1/0 } }; r := g()`
the finally block's division-by-zero does *not* become the statement's
outcome — it is discarded, the return-signal is re-raised, and `g()`
returns `1` with the program completing normally. -/
theorem try_finally_counterexample :
    (runProgram 64 progTryReturnFinally).1 = .ok () ∧
    (runProgram 64 progTryReturnFinally).2.env.get "r" = some (.int 1) :=
  ⟨rfl, rfl⟩

/-- C4 amended: the `finally` block runs unconditionally after the
body/handler outcome is decided, and a `finally` error overrides that
outcome — *except* when the body raised a return-signal: then
`finally` still runs (in the enclosing scope, not a fresh one) but any
error it raises is discarded and the return-signal is re-raised. -/
theorem try_finally_amended :
    (∀ fuel body cvar cbody fbody (st : State) v st2 envP rf stf,
      execBlockInner fuel body { st with env := st.env.child }
        = (.err (.returnSignal v), st2) →
      st2.env.intoParent = some envP →
      execBlockInner fuel fbody { st2 with env := envP } = (rf, stf) →
      rf ≠ .undet →
      execStmt (fuel + 1) (.tryStmt body cvar cbody (some fbody)) st
        = (.err (.returnSignal v), stf)) ∧
    (∀ fuel body cvar cbody fbody (st : State) st2 envP ef stf envF,
      execBlockInner fuel body { st with env := st.env.child } = (.ok (), st2) →
      st2.env.intoParent = some envP →
      execBlockInner fuel fbody { st2 with env := envP.child } = (.err ef, stf) →
      stf.env.intoParent = some envF →
      execStmt (fuel + 1) (.tryStmt body cvar cbody (some fbody)) st
        = (.err ef, { stf with env := envF })) ∧
    (∀ fuel body cvar cbody fbody (st : State) e st2 envP rc stc2 envC ef stf envF,
      execBlockInner fuel body { st with env := st.env.child } = (.err e, st2) →
      isRetSig e = false →
      st2.env.intoParent = some envP →
      execBlockInner fuel cbody
          { st2 with env := (envP.child).set cvar (.str (errString e)) } = (rc, stc2) →
      rc ≠ .undet →
      stc2.env.intoParent = some envC →
      execBlockInner fuel fbody { stc2 with env := envC.child } = (.err ef, stf) →
      stf.env.intoParent = some envF →
      execStmt (fuel + 1) (.tryStmt body cvar cbody (some fbody)) st
        = (.err ef, { stf with env := envF })) := by
  refine ⟨?_, ?_, ?_⟩
  · intro fuel body cvar cbody fbody st v st2 envP rf stf h1 h2 h3 h4
    simp only [execBlockInner] at h1 h3
    have hpop : popEnv st2 = some { st2 with env := envP } := by
      simp [popEnv, h2]
    have key : execStmt (fuel + 1) (.tryStmt body cvar cbody (some fbody)) st
        = tryExecF (interp fuel) body cvar cbody (some fbody) st := rfl
    rw [key]
    simp only [tryExecF]
    rw [h1]
    dsimp only
    rw [hpop]
    dsimp only [isRetSig]
    rw [h3]
    dsimp only
    cases rf with
    | ok a => rfl
    | err e => rfl
    | undet => exact absurd rfl h4
  · intro fuel body cvar cbody fbody st st2 envP ef stf envF h1 h2 h3 h4
    simp only [execBlockInner] at h1 h3
    have hpop : popEnv st2 = some { st2 with env := envP } := by
      simp [popEnv, h2]
    have hpop2 : popEnv stf = some { stf with env := envF } := by
      simp [popEnv, h4]
    have key : execStmt (fuel + 1) (.tryStmt body cvar cbody (some fbody)) st
        = tryExecF (interp fuel) body cvar cbody (some fbody) st := rfl
    rw [key]
    simp only [tryExecF]
    rw [h1]
    dsimp only
    rw [hpop]
    dsimp only
    simp only [finallyOutcome]
    rw [h3]
    dsimp only
    rw [hpop2]
  · intro fuel body cvar cbody fbody st e st2 envP rc stc2 envC ef stf envF
      h1 hrs h2 h3 h4 h5 h6 h7
    simp only [execBlockInner] at h1 h3 h6
    have hpop : popEnv st2 = some { st2 with env := envP } := by
      simp [popEnv, h2]
    have hpop2 : popEnv stc2 = some { stc2 with env := envC } := by
      simp [popEnv, h5]
    have hpop3 : popEnv stf = some { stf with env := envF } := by
      simp [popEnv, h7]
    have key : execStmt (fuel + 1) (.tryStmt body cvar cbody (some fbody)) st
        = tryExecF (interp fuel) body cvar cbody (some fbody) st := rfl
    rw [key]
    simp only [tryExecF]
    rw [h1]
    dsimp only
    rw [hpop]
    dsimp only
    rw [hrs]
    dsimp only
    rw [h3]
    dsimp only
    rw [hpop2]
    dsimp only
    cases rc with
    | ok a =>
      cases a
      simp only [finallyOutcome]
      rw [h6]
      dsimp only
      rw [hpop3]
    | err e' =>
      simp only [finallyOutcome]
      rw [h6]
      dsimp only
      rw [hpop3]
    | undet => exact absurd rfl h4

/-- Witness for C4: the three cases at concrete programs — a failing
`finally` is discarded when the body returned, and overrides the
outcome when the body completed or a signal was caught. -/
theorem try_finally_amended_witness :
    execStmt 31 (.tryStmt [.ret (.intE 1)] "e" []
        (some [.letStmt "x" (.binop .div (.intE 1) (.intE 0))])) initState
      = (.err (.returnSignal (.int 1)), ⟨Env.mk [] none, ⟨[], [], 0⟩, []⟩) ∧
    execStmt 31 (.tryStmt [] "e" []
        (some [.exprStmt (.binop .div (.intE 1) (.intE 0))])) initState
      = (.err .divisionByZero,
         ⟨Env.mk [] none, ⟨[], [], 0⟩, []⟩) ∧
    execStmt 31 (.tryStmt [.stop (.intE 3)] "e" []
        (some [.exprStmt (.binop .div (.intE 1) (.intE 0))])) initState
      = (.err .divisionByZero,
         ⟨Env.mk [] none, ⟨[], [], 0⟩, []⟩) := by
  refine ⟨?_, ?_, ?_⟩
  · exact try_finally_amended.1 30 [.ret (.intE 1)] "e" []
      [.letStmt "x" (.binop .div (.intE 1) (.intE 0))] initState (.int 1)
      ⟨Env.mk [] (some (Env.mk [] none)), ⟨[], [], 0⟩, []⟩ (Env.mk [] none)
      (.err .divisionByZero) ⟨Env.mk [] none, ⟨[], [], 0⟩, []⟩
      rfl rfl rfl (by simp)
  · exact try_finally_amended.2.1 30 [] "e" []
      [.exprStmt (.binop .div (.intE 1) (.intE 0))] initState
      ⟨Env.mk [] (some (Env.mk [] none)), ⟨[], [], 0⟩, []⟩ (Env.mk [] none)
      .divisionByZero ⟨Env.mk [] (some (Env.mk [] none)), ⟨[], [], 0⟩, []⟩ (Env.mk [] none)
      rfl rfl rfl rfl
  · exact try_finally_amended.2.2 30 [.stop (.intE 3)] "e" []
      [.exprStmt (.binop .div (.intE 1) (.intE 0))] initState (.stopSignal 3)
      ⟨Env.mk [] (some (Env.mk [] none)), ⟨[], [], 0⟩, []⟩ (Env.mk [] none)
      (.ok ()) ⟨Env.mk [("e", .str (errString (.stopSignal 3)))] (some (Env.mk [] none)),
        ⟨[], [], 0⟩, []⟩ (Env.mk [] none)
      .divisionByZero ⟨Env.mk [] (some (Env.mk [] none)), ⟨[], [], 0⟩, []⟩ (Env.mk [] none)
      rfl rfl rfl rfl (by simp) rfl rfl rfl

/-! ### Map built-ins -/

theorem lookup_lt_none {α : Type} (ps : List (Nat × α)) (n : Nat)
    (h : ∀ p ∈ ps, p.1 < n) : ps.lookup n = none := by
  induction ps with
  | nil => rfl
  | cons p rest ih =>
    have hp := h p (List.mem_cons_self p rest)
    simp only [List.lookup]
    rw [show (n == p.1) = false from by simp; omega]
    exact ih (fun q hq => h q (List.mem_cons_of_mem _ hq))

theorem lookup_append_some {α : Type} (ps : List (Nat × α)) (n : Nat) (x : α)
    (h : ps.lookup n = none) : (ps ++ [(n, x)]).lookup n = some x := by
  induction ps with
  | nil => simp [List.lookup]
  | cons p rest ih =>
    cases hb : (n == p.1) with
    | true => simp [List.lookup, hb] at h
    | false =>
      simp only [List.cons_append, List.lookup, hb]
      refine ih ?_
      simpa [List.lookup, hb] using h

theorem lookupVar_isSome_of_mem (l : List (String × Val)) (k : String)
    (h : k ∈ l.map Prod.fst) : (lookupVar l k).isSome := by
  induction l with
  | nil => simp at h
  | cons kv rest ih =>
    obtain ⟨k', v⟩ := kv
    by_cases hk : k' = k
    · simp [lookupVar, hk]
    · simp only [List.map_cons, List.mem_cons] at h
      rcases h with h | h
      · exact absurd h.symm hk
      · simpa [lookupVar, hk] using ih h

/-- C8: `keys(m)` allocates a fresh list cell (an id unused in the
incoming store) holding the map's keys sorted ascending — a sorted
permutation of exactly the key set — and `values(m)` allocates a fresh
list whose `i`-th element is the value stored under the `i`-th sorted
key; every sorted key is present in the map. -/
theorem keys_values_sorted_matched :
    ∀ fuel id (st : State) l,
      getMap st.store id = some l →
      st.store.WF →
      callFunction (fuel + 1) "keys" [.mapRef id] st
        = (.ok (.listRef st.store.nextId),
           { st with store := (allocList st.store ((sortedKeys l).map Val.str)).2 }) ∧
      callFunction (fuel + 1) "values" [.mapRef id] st
        = (.ok (.listRef st.store.nextId),
           { st with store :=
             (allocList st.store
               ((sortedKeys l).map (fun k => (lookupVar l k).getD .null))).2 }) ∧
      List.Sorted (· ≤ ·) (sortedKeys l) ∧
      (sortedKeys l).Perm (l.map Prod.fst) ∧
      getList st.store st.store.nextId = none ∧
      getList (allocList st.store ((sortedKeys l).map Val.str)).2 st.store.nextId
        = some ((sortedKeys l).map Val.str) ∧
      (∀ i, ((sortedKeys l).map (fun k => (lookupVar l k).getD .null)).get? i
        = ((sortedKeys l).get? i).map (fun k => (lookupVar l k).getD .null)) ∧
      (∀ k ∈ sortedKeys l, (lookupVar l k).isSome) := by
  intro fuel id st l h hwf
  have hfresh : getList st.store st.store.nextId = none :=
    lookup_lt_none st.store.lists st.store.nextId hwf.1
  refine ⟨?_, ?_, ?_, ?_, hfresh, ?_, ?_, ?_⟩
  · have key : callFunction (fuel + 1) "keys" [.mapRef id] st
        = keysBuiltin [.mapRef id] st := rfl
    rw [key]
    have step : keysBuiltin [.mapRef id] st
        = (match getMap st.store id with
           | some contents =>
             (.ok (.listRef st.store.nextId),
              { st with store := (allocList st.store ((sortedKeys contents).map Val.str)).2 })
           | none => (.undet, st)) := rfl
    rw [step, h]
  · have key : callFunction (fuel + 1) "values" [.mapRef id] st
        = valuesBuiltin [.mapRef id] st := rfl
    rw [key]
    have step : valuesBuiltin [.mapRef id] st
        = (match getMap st.store id with
           | some contents =>
             (.ok (.listRef st.store.nextId),
              { st with store := (allocList st.store
                  ((sortedKeys contents).map (fun k => (lookupVar contents k).getD .null))).2 })
           | none => (.undet, st)) := rfl
    rw [step, h]
  · exact List.sorted_insertionSort _ _
  · exact List.perm_insertionSort _ _
  · exact lookup_append_some st.store.lists st.store.nextId _ hfresh
  · intro i
    exact List.get?_map _ _ _
  · intro k hk
    refine lookupVar_isSome_of_mem l k ?_
    exact (List.perm_insertionSort (· ≤ ·) (l.map Prod.fst)).mem_iff.mp hk

/-- Witness for C8 at the concrete map `{"b": 1, "a": 2}`. -/
theorem keys_values_sorted_matched_witness :
    callFunction 11 "keys" [.mapRef 0] stMapW
      = (.ok (.listRef 1),
         { stMapW with store :=
           (allocList stMapW.store
             ((sortedKeys [("b", Val.int 1), ("a", Val.int 2)]).map Val.str)).2 }) ∧
    List.Sorted (· ≤ ·) (sortedKeys [("b", Val.int 1), ("a", Val.int 2)]) := by
  have h := keys_values_sorted_matched 10 0 stMapW [("b", Val.int 1), ("a", Val.int 2)]
    rfl (by decide)
  exact ⟨h.1, h.2.2.1⟩

end Latch
